import Mathlib

/-!
Shallow embedding of `src/custom-algorithms/random-forest/algorithm.py`.

The repository is a wrapper around an external statistical library
(scikit-learn's `StandardScaler` and `RandomForestClassifier`).  The wrapper
itself is embedded directly from the source: parameter defaulting
(`Algorithm.__init__`), the training sequence (`Algorithm.fit`), and the two
prediction operations (`Algorithm.predict`, `Algorithm.predict_proba`) become
explicit state-passing functions.  Each Python method that can raise returns
`Except Err`; assignments to `self.*` become updates of the `Algorithm`
state record, and methods that assign nothing to `self` return the state
unchanged.

The external library is not part of the repository.  Its fitting routines
are modelled as an `MLLib` record of pure functions (scikit-learn's fit is
deterministic for a fixed `random_state`, which is exactly what a Lean
function encodes), and the contracts the library documents (one learned
statistic per feature column, `classes_` equal to the sorted distinct
labels, one tree per requested estimator, trees voting into the class list)
are collected in `MLLib.WF` and taken as hypotheses where a claim needs
them.  Feature values are `ℚ` (exact arithmetic standing in for floats) and
labels are `ℤ`.
-/

/-- Decidable equality for `Except`, so closed wrapper runs can be checked
by evaluation. -/
instance {ε α : Type _} [DecidableEq ε] [DecidableEq α] : DecidableEq (Except ε α) := fun x y =>
  match x, y with
  | Except.error e, Except.error f =>
    if h : e = f then isTrue (by rw [h]) else isFalse (by intro hx; cases hx; exact h rfl)
  | Except.error _, Except.ok _ => isFalse (by intro h; cases h)
  | Except.ok _, Except.error _ => isFalse (by intro h; cases h)
  | Except.ok a, Except.ok b =>
    if h : a = b then isTrue (by rw [h]) else isFalse (by intro hx; cases hx; exact h rfl)

namespace RF

/-- Feature matrix: rows are samples, columns are features (`ℚ` entries). -/
abbrev Mat : Type := List (List ℚ)

/-- Column count of a matrix, read off the first row (numpy shape semantics
for a rectangular array). -/
def numCols (X : Mat) : Nat := (X.headD []).length

/-- A nested Python list converts to a 2-d numeric numpy array exactly when
all rows have the same length; `np.array` raises on ragged input. -/
def rectOK (X : Mat) : Bool := X.all (fun r => r.length == numCols X)

/-- Errors surfaced by the underlying library; the wrapper catches nothing,
so they propagate to the caller uninterpreted (spec section 7). -/
inductive Err : Type where
  | notFitted : Err
  | shapeMismatch : Err
  | libraryError : Err
deriving DecidableEq

/-- The four hyperparameters read from `params.json` in
`Algorithm.__init__` (lines 25-28).  `max_depth = none` is Python's `None`
(unbounded depth). -/
structure Hyper : Type where
  n_estimators : Int
  max_depth : Option Int
  min_samples_split : Int
  random_state : Int
deriving DecidableEq

/-- The configuration mapping `params`: each recognized key is either absent
(`none`) or present with a value.  A present `max_depth` key may itself hold
Python `None`, hence the nested `Option`. -/
structure ParamsDict : Type where
  n_estimators? : Option Int
  max_depth? : Option (Option Int)
  min_samples_split? : Option Int
  random_state? : Option Int
deriving DecidableEq

/-- Lines 25-28: `params.get(key, default)` for the four options.
Missing keys resolve to the documented defaults 100 / None / 2 / 42;
present keys pass through unvalidated. -/
def resolveParams (p : ParamsDict) : Hyper where
  n_estimators := p.n_estimators?.getD 100
  max_depth := p.max_depth?.getD none
  min_samples_split := p.min_samples_split?.getD 2
  random_state := p.random_state?.getD 42

/-- The trained ensemble (scikit-learn's fitted `RandomForestClassifier`),
opaque to the wrapper.  `classes` models `classes_` (the distinct training
labels in ascending order), `trees` models `estimators_` (each tree maps a
scaled feature row to an index into `classes`), and `importances` models
`feature_importances_`. -/
structure RFModel : Type where
  classes : List Int
  trees : List (List ℚ → Nat)
  importances : List ℚ

/-- Per-row class-probability estimate of the fitted ensemble: the fraction
of trees voting for each class, in the order of `classes`. -/
def rfPredictProbaRow (m : RFModel) (row : List ℚ) : List ℚ :=
  let votes := m.trees.map (fun t => t row)
  (List.range m.classes.length).map (fun c => ((votes.count c : ℚ) / (m.trees.length : ℚ)))

/-- Index of the first maximal entry of a list (numpy `argmax`). -/
def argmaxIdx : List ℚ → Nat
  | [] => 0
  | x :: xs => if (xs.getD (argmaxIdx xs) 0) > x then argmaxIdx xs + 1 else 0

/-- Per-row label prediction of the fitted ensemble: the class with the
largest probability estimate. -/
def rfPredictRow (m : RFModel) (row : List ℚ) : Int :=
  m.classes.getD (argmaxIdx (rfPredictProbaRow m row)) 0

/-- The external library's two fitting routines, as pure functions:
`scalerFitStats` is `StandardScaler.fit` (the learned `(mean, scale)` pair
per feature column) and `rfTrain` is `RandomForestClassifier.fit` on the
scaled features.  Purity encodes the library's documented determinism for a
fixed `random_state`. -/
structure MLLib : Type where
  scalerFitStats : Mat → List (ℚ × ℚ)
  rfTrain : Hyper → Mat → List Int → RFModel

/-- Contracts documented by the external library, assumed where a claim
needs them: one `(mean, scale)` statistic per feature column; for any
training call the wrapper can make succeed, `classes_` is the ascending
list of distinct labels, there is one tree per requested estimator, and
every tree votes for an index inside the class list. -/
structure MLLib.WF (lib : MLLib) : Prop where
  stats_len : ∀ X, (lib.scalerFitStats X).length = numCols X
  classes_eq : ∀ h X y, (lib.rfTrain h X y).classes = (y.dedup).insertionSort (· ≤ ·)
  trees_count : ∀ h X y, (lib.rfTrain h X y).trees.length = h.n_estimators.toNat
  votes_lt : ∀ h X y, y ≠ [] → ∀ t ∈ (lib.rfTrain h X y).trees, ∀ row,
    t row < (lib.rfTrain h X y).classes.length

/-- Wrapper state: the stored hyperparameters plus the two pieces of fitted
state, each `none` until populated (`StandardScaler()` and
`RandomForestClassifier(...)` are constructed unfit, lines 31-38). -/
structure Algorithm : Type where
  hyper : Hyper
  scalerStats : Option (List (ℚ × ℚ))
  model : Option RFModel

/-- Lines 22-44, `Algorithm.__init__`: resolve the four options and hold an
unfit scaler and an unfit ensemble.  The remaining statements only print. -/
def construct (p : ParamsDict) : Algorithm where
  hyper := resolveParams p
  scalerStats := none
  model := none

/-- Line 65 / 104, `self.scaler.transform`: applies the learned per-column
`(x - mean) / scale` map row by row.  Raises `NotFittedError` when the
scaler was never fitted, and a shape error when a row's length differs from
the number of fitted statistics. -/
def scalerTransformRow (stats : List (ℚ × ℚ)) (row : List ℚ) : List ℚ :=
  row.zipWith (fun x ms => (x - ms.1) / ms.2) stats

/-- Scaler transform over a whole matrix, with the library's fitted-state
and feature-count checks. -/
def scalerTransform (st : Option (List (ℚ × ℚ))) (X : Mat) : Except Err Mat :=
  match st with
  | none => Except.error Err.notFitted
  | some stats =>
    if X.all (fun r => r.length == stats.length)
    then Except.ok (X.map (scalerTransformRow stats))
    else Except.error Err.shapeMismatch

/-- Line 107, `self.model.predict`: raises `NotFittedError` on an untrained
ensemble, otherwise predicts one label per row. -/
def modelPredict (m? : Option RFModel) (Xs : Mat) : Except Err (List Int) :=
  match m? with
  | none => Except.error Err.notFitted
  | some m => Except.ok (Xs.map (rfPredictRow m))

/-- Line 126, `self.model.predict_proba`: raises `NotFittedError` on an
untrained ensemble, otherwise one probability row per input row. -/
def modelPredictProba (m? : Option RFModel) (Xs : Mat) : Except Err Mat :=
  match m? with
  | none => Except.error Err.notFitted
  | some m => Except.ok (Xs.map (rfPredictProbaRow m))

/-- Validation the library performs when `RandomForestClassifier.fit` runs:
sample counts of features and labels must agree, and the hyperparameters
must be in range (`n_estimators ≥ 1`, `min_samples_split ≥ 2`,
`max_depth ≥ 1` when bounded). -/
def trainOK (h : Hyper) (X : Mat) (y : List Int) : Bool :=
  (y.length == X.length) && decide (1 ≤ h.n_estimators) &&
    decide (2 ≤ h.min_samples_split) &&
    (match h.max_depth with
     | none => true
     | some d => decide (1 ≤ d))

/-- Lines 46-85, `Algorithm.fit`, as a state transformer.  The sequence is
that of the source: `np.array` conversion (raises on ragged input, before
the scaler is touched), then `self.scaler.fit_transform`, then
`self.model.fit` on the scaled features (raises on invalid shapes or
hyperparameters, otherwise mutates the ensemble's fitted state).
`StandardScaler.fit` first deletes any previously fitted statistics
(`_reset`) and only then validates its input, so a matrix that converts
but has no samples or no features raises with the scaler left unfitted,
while a matrix that passes leaves the scaler holding the newly learned
statistics.  A failure propagates, leaving every mutation already made in
place — a scaler fitted by a training call whose ensemble training then
fails stays fitted, and a previously fitted scaler reset by a failing
refit stays unfitted.  The accuracy and feature-importance statements
(lines 72-85) only print. -/
def Algorithm.fitS (lib : MLLib) (a : Algorithm) (X : Mat) (y : List Int) :
    Algorithm × Except Err Unit :=
  if rectOK X then
    if 0 < X.length ∧ 0 < numCols X then
      let stats := lib.scalerFitStats X
      let a1 : Algorithm := { a with scalerStats := some stats }
      if trainOK a.hyper X y then
        ({ a1 with model := some (lib.rfTrain a.hyper (X.map (scalerTransformRow stats)) y) },
          Except.ok ())
      else (a1, Except.error Err.libraryError)
    else ({ a with scalerStats := none }, Except.error Err.libraryError)
  else (a, Except.error Err.libraryError)

/-- Lines 87-112, `Algorithm.predict`, as a state transformer: scale the
input with the fitted scaler, then delegate to the trained ensemble.  The
method assigns nothing to `self`, so the state component is returned as it
came in. -/
def Algorithm.predictS (a : Algorithm) (X : Mat) : Algorithm × Except Err (List Int) :=
  (a, (scalerTransform a.scalerStats X).bind (modelPredict a.model))

/-- Lines 114-126, `Algorithm.predict_proba`, as a state transformer: same
preprocessing as `predictS`, delegating to the ensemble's
probability-estimation path.  No assignment to `self`. -/
def Algorithm.predictProbaS (a : Algorithm) (X : Mat) : Algorithm × Except Err Mat :=
  (a, (scalerTransform a.scalerStats X).bind (modelPredictProba a.model))

/-- Lines 82-83: `np.argsort(importances)` — the feature indices ordered by
ascending importance (stable model of the library's internal ordering on
ties). -/
def argsortAsc (imp : List ℚ) : List Nat :=
  List.insertionSort (fun i j => imp.getD i 0 ≤ imp.getD j 0) (List.range imp.length)

/-- Lines 82-83: `np.argsort(importances)[-5:][::-1]` — the indices printed
by `fit` as the top-5 feature importances, most influential first. -/
def topFiveIndices (imp : List ℚ) : List Nat :=
  ((argsortAsc imp).drop (imp.length - 5)).reverse

/-- A concrete instantiation of the external library, used to evaluate the
wrapper on closed inputs: unit statistics per column, and an ensemble whose
trees all vote for the first class. -/
def lib0 : MLLib where
  scalerFitStats := fun X => (List.range (numCols X)).map (fun _ => ((0 : ℚ), (1 : ℚ)))
  rfTrain := fun h _X y =>
    { classes := (y.dedup).insertionSort (· ≤ ·)
      trees := List.replicate h.n_estimators.toNat (fun _ => 0)
      importances := [1/2, 1/4, 3/4, 1/8, 1, 0] }

/-- The concrete library `lib0` satisfies the documented contracts. -/
theorem lib0_wf : lib0.WF where
  stats_len := by intro X; simp [lib0]
  classes_eq := by intro h X y; rfl
  trees_count := by intro h X y; simp [lib0]
  votes_lt := by
    intro h X y hy t ht row
    have h0 : t = fun _ => (0 : Nat) := List.eq_of_mem_replicate ht
    have hd : y.dedup ≠ [] := by simpa using hy
    have : 0 < ((y.dedup).insertionSort (· ≤ ·)).length := by
      rw [List.length_insertionSort]
      exact List.length_pos.mpr hd
    simpa [lib0, h0] using this

/-- Characterisation of a successful training call: exactly the library's
validation conditions hold. -/
theorem fitS_snd_ok_iff (lib : MLLib) (a : Algorithm) (X : Mat) (y : List Int) :
    (a.fitS lib X y).2 = Except.ok () ↔
      (rectOK X = true ∧ (0 < X.length ∧ 0 < numCols X) ∧ trainOK a.hyper X y = true) := by
  unfold Algorithm.fitS
  split_ifs with h1 h2 h3 <;> simp_all

/-- After a successful training call the wrapper holds the statistics the
scaler learned from the training matrix and the ensemble the library
trained on the scaled features; the hyperparameters are untouched. -/
theorem fitS_fst_of_ok (lib : MLLib) (a : Algorithm) (X : Mat) (y : List Int)
    (h : (a.fitS lib X y).2 = Except.ok ()) :
    (a.fitS lib X y).1 =
      { hyper := a.hyper
        scalerStats := some (lib.scalerFitStats X)
        model := some (lib.rfTrain a.hyper (X.map (scalerTransformRow (lib.scalerFitStats X))) y) } := by
  unfold Algorithm.fitS at h ⊢
  split_ifs at h ⊢
  simp_all

/-- The scaler transform succeeds exactly on inputs whose rows all have as
many entries as there are fitted statistics, and is then a row map. -/
theorem scalerTransform_ok (stats : List (ℚ × ℚ)) (X : Mat)
    (h : ∀ r ∈ X, r.length = stats.length) :
    scalerTransform (some stats) X = Except.ok (X.map (scalerTransformRow stats)) := by
  simp only [scalerTransform]
  rw [if_pos]
  simp only [List.all_eq_true, beq_iff_eq]
  exact h

/-- C1: after a successful `fit`, `predict` on any matrix whose column
count matches fit time returns exactly one predicted label per input row,
produced row by row in input row order (the output is the row map of a
single per-row prediction function over the input). -/
theorem predict_after_fit_one_per_row (lib : MLLib) (hWF : lib.WF) (a0 : Algorithm)
    (X0 : Mat) (y : List Int) (X : Mat)
    (hfit : (a0.fitS lib X0 y).2 = Except.ok ())
    (hcols : ∀ r ∈ X, r.length = numCols X0) :
    ∃ g : List ℚ → Int,
      ((a0.fitS lib X0 y).1.predictS X).2 = Except.ok (X.map g) ∧
        (X.map g).length = X.length := by
  have hfst := fitS_fst_of_ok lib a0 X0 y hfit
  refine ⟨fun r => rfPredictRow
      (lib.rfTrain a0.hyper (X0.map (scalerTransformRow (lib.scalerFitStats X0))) y)
      (scalerTransformRow (lib.scalerFitStats X0) r), ?_, by simp⟩
  have hlen : ∀ r ∈ X, r.length = (lib.scalerFitStats X0).length := by
    intro r hr
    rw [hWF.stats_len]
    exact hcols r hr
  simp only [Algorithm.predictS, hfst]
  rw [scalerTransform_ok _ _ hlen]
  simp [Except.bind, modelPredict, List.map_map, Function.comp]

/-- Closed instance of `predict_after_fit_one_per_row`: default
configuration, a 2×1 training matrix with two labels, prediction on one
row. -/
theorem predict_after_fit_one_per_row_w :
    ∃ g : List ℚ → Int,
      (((construct ⟨none, none, none, none⟩).fitS lib0 [[1], [2]] [0, 1]).1.predictS [[3]]).2 =
          Except.ok (([[3]] : Mat).map g) ∧
        (([[3]] : Mat).map g).length = ([[3]] : Mat).length :=
  predict_after_fit_one_per_row lib0 lib0_wf (construct ⟨none, none, none, none⟩)
    [[1], [2]] [0, 1] [[3]] (by decide) (by decide)

/-- C2: two wrappers whose configurations resolve to the same four
hyperparameters (in particular the same `random_state`), trained on the
same data, return identical predictions on the same test input — the
library's fitting is deterministic for a fixed seed, so the whole pipeline
is a function of the resolved configuration and the data. -/
theorem same_config_same_predictions (lib : MLLib) (p1 p2 : ParamsDict)
    (X : Mat) (y : List Int) (Xt : Mat)
    (hcfg : resolveParams p1 = resolveParams p2) :
    (((construct p1).fitS lib X y).1.predictS Xt).2 =
      (((construct p2).fitS lib X y).1.predictS Xt).2 := by
  have hc : construct p1 = construct p2 := by simp [construct, hcfg]
  rw [hc]

/-- Closed instance of `same_config_same_predictions`: one configuration
spells out the defaults, the other omits every key; they resolve
identically, and the trained wrappers predict identically. -/
theorem same_config_same_predictions_w :
    (((construct ⟨some 100, none, some 2, some 42⟩).fitS lib0 [[1], [2]] [0, 1]).1.predictS
        [[3]]).2 =
      (((construct ⟨none, none, none, none⟩).fitS lib0 [[1], [2]] [0, 1]).1.predictS [[3]]).2 :=
  same_config_same_predictions lib0 ⟨some 100, none, some 2, some 42⟩ ⟨none, none, none, none⟩
    [[1], [2]] [0, 1] [[3]] (by decide)

/-- C3: on any wrapper state, running `predict` twice on the same input
with no intervening `fit` returns the same output both times, and the state
after the first call is the state the second call sees — `predict` assigns
nothing to the wrapper. -/
theorem predict_twice_same_output (a : Algorithm) (X : Mat) :
    ((a.predictS X).1.predictS X).2 = (a.predictS X).2 ∧
      ((a.predictS X).1.predictS X).1 = (a.predictS X).1 :=
  ⟨rfl, rfl⟩

/-- C5: on a wrapper that has never been fitted, both prediction
operations fail with the library's not-fitted error — the scaler transform
raises before any result can be produced. -/
theorem predict_before_fit_fails (p : ParamsDict) (X : Mat) :
    ((construct p).predictS X).2 = Except.error Err.notFitted ∧
      ((construct p).predictProbaS X).2 = Except.error Err.notFitted :=
  ⟨rfl, rfl⟩

/-- C6: construction resolves each omitted option to its documented
default (`n_estimators` 100, `max_depth` unbounded, `min_samples_split` 2,
`random_state` 42) and passes each present option through unchanged and
unvalidated. -/
theorem construct_resolves_defaults (p : ParamsDict) :
    (p.n_estimators? = none → (construct p).hyper.n_estimators = 100) ∧
      (p.max_depth? = none → (construct p).hyper.max_depth = none) ∧
      (p.min_samples_split? = none → (construct p).hyper.min_samples_split = 2) ∧
      (p.random_state? = none → (construct p).hyper.random_state = 42) ∧
      (∀ v, p.n_estimators? = some v → (construct p).hyper.n_estimators = v) ∧
      (∀ v, p.max_depth? = some v → (construct p).hyper.max_depth = v) ∧
      (∀ v, p.min_samples_split? = some v → (construct p).hyper.min_samples_split = v) ∧
      (∀ v, p.random_state? = some v → (construct p).hyper.random_state = v) := by
  refine ⟨fun h => ?_, fun h => ?_, fun h => ?_, fun h => ?_,
    fun v h => ?_, fun v h => ?_, fun v h => ?_, fun v h => ?_⟩ <;>
    simp [construct, resolveParams, h]

/-- Closed instance of `construct_resolves_defaults`: the empty
configuration resolves to the four defaults, and a fully specified
configuration passes through. -/
theorem construct_resolves_defaults_w :
    (construct ⟨none, none, none, none⟩).hyper.n_estimators = 100 ∧
      (construct ⟨none, none, none, none⟩).hyper.max_depth = none ∧
      (construct ⟨none, none, none, none⟩).hyper.min_samples_split = 2 ∧
      (construct ⟨none, none, none, none⟩).hyper.random_state = 42 ∧
      (construct ⟨some 7, some (some 3), some 4, some 0⟩).hyper.n_estimators = 7 ∧
      (construct ⟨some 7, some (some 3), some 4, some 0⟩).hyper.max_depth = some 3 ∧
      (construct ⟨some 7, some (some 3), some 4, some 0⟩).hyper.min_samples_split = 4 ∧
      (construct ⟨some 7, some (some 3), some 4, some 0⟩).hyper.random_state = 0 :=
  ⟨(construct_resolves_defaults _).1 rfl,
    (construct_resolves_defaults _).2.1 rfl,
    (construct_resolves_defaults _).2.2.1 rfl,
    (construct_resolves_defaults _).2.2.2.1 rfl,
    (construct_resolves_defaults _).2.2.2.2.1 7 rfl,
    (construct_resolves_defaults _).2.2.2.2.2.1 (some 3) rfl,
    (construct_resolves_defaults _).2.2.2.2.2.2.1 4 rfl,
    (construct_resolves_defaults _).2.2.2.2.2.2.2 0 rfl⟩

/-- C7: after a successful `fit` on `X0`, the wrapper holds exactly the
statistics the scaler learned from `X0`, and every later `predict` scales
its input with those training-time statistics — the prediction input enters
only as the argument of the fitted transform, never as a source of new
statistics. -/
theorem predict_uses_training_stats (lib : MLLib) (a0 : Algorithm) (X0 : Mat) (y : List Int)
    (hfit : (a0.fitS lib X0 y).2 = Except.ok ()) :
    (a0.fitS lib X0 y).1.scalerStats = some (lib.scalerFitStats X0) ∧
      ∀ X, ((a0.fitS lib X0 y).1.predictS X).2 =
        (scalerTransform (some (lib.scalerFitStats X0)) X).bind
          (modelPredict (a0.fitS lib X0 y).1.model) := by
  have hfst := fitS_fst_of_ok lib a0 X0 y hfit
  constructor
  · rw [hfst]
  · intro X
    simp only [Algorithm.predictS, hfst]

/-- Closed instance of `predict_uses_training_stats`. -/
theorem predict_uses_training_stats_w :
    ((construct ⟨none, none, none, none⟩).fitS lib0 [[1], [2]] [0, 1]).1.scalerStats =
        some (lib0.scalerFitStats [[1], [2]]) ∧
      (((construct ⟨none, none, none, none⟩).fitS lib0 [[1], [2]] [0, 1]).1.predictS [[5]]).2 =
        (scalerTransform (some (lib0.scalerFitStats [[1], [2]])) [[5]]).bind
          (modelPredict ((construct ⟨none, none, none, none⟩).fitS lib0 [[1], [2]] [0, 1]).1.model) :=
  ⟨(predict_uses_training_stats lib0 (construct ⟨none, none, none, none⟩) [[1], [2]] [0, 1]
      (by decide)).1,
    (predict_uses_training_stats lib0 (construct ⟨none, none, none, none⟩) [[1], [2]] [0, 1]
      (by decide)).2 [[5]]⟩

/-- C10: both prediction operations return the wrapper state exactly as it
came in — every field (the stored hyperparameters, the scaler statistics,
the trained ensemble) is unchanged; in the embedding only `fitS` produces a
new state. -/
theorem predict_changes_no_field (a : Algorithm) (X : Mat) :
    (a.predictS X).1 = a ∧ (a.predictProbaS X).1 = a :=
  ⟨rfl, rfl⟩

/-- A sum of a function over `List.range` is the matching `Finset.range`
sum. -/
theorem list_range_sum_eq (k : Nat) (f : Nat → ℚ) :
    ((List.range k).map f).sum = ∑ c ∈ Finset.range k, f c := by
  simp [Finset.sum_range, Finset.range, Multiset.range]

/-- Counting every value below `k` accounts for each element of a list of
values below `k` exactly once. -/
theorem sum_count_range (k : Nat) :
    ∀ l : List Nat, (∀ v ∈ l, v < k) →
      (∑ c ∈ Finset.range k, ((l.count c : ℚ))) = l.length := by
  intro l
  induction l with
  | nil => intro _; simp
  | cons a t ih =>
    intro h
    have ha : a ∈ Finset.range k := Finset.mem_range.mpr (h a (List.mem_cons_self a t))
    have ht := ih (fun v hv => h v (List.mem_cons_of_mem a hv))
    simp only [List.count_cons]
    push_cast
    rw [Finset.sum_add_distrib, ht]
    have hone : (∑ c ∈ Finset.range k, (if a == c then (1 : ℚ) else 0)) = 1 := by
      have hit : ∀ c : Nat, (if a == c then (1 : ℚ) else 0) = if a = c then 1 else 0 := by
        intro c
        simp [beq_iff_eq]
      simp only [hit]
      rw [Finset.sum_ite_eq (Finset.range k) a (fun _ => (1 : ℚ))]
      simp [ha]
    rw [hone]
    simp only [List.length_cons]
    push_cast
    ring

/-- Each probability row of the modelled ensemble is a distribution: with
at least one tree and every vote landing inside the class list, the
vote fractions sum to 1. -/
theorem probaRow_sum (m : RFModel) (row : List ℚ)
    (hT : m.trees ≠ []) (hv : ∀ t ∈ m.trees, t row < m.classes.length) :
    (rfPredictProbaRow m row).sum = 1 := by
  simp only [rfPredictProbaRow]
  rw [list_range_sum_eq]
  have hmem : ∀ v ∈ m.trees.map (fun t => t row), v < m.classes.length := by
    intro v hv'
    obtain ⟨t, ht, rfl⟩ := List.mem_map.mp hv'
    exact hv t ht
  rw [← Finset.sum_div, sum_count_range _ _ hmem, List.length_map]
  have hne : ((m.trees.length : ℚ)) ≠ 0 := by
    have : m.trees.length ≠ 0 := fun h0 => hT (List.length_eq_zero.mp h0)
    exact_mod_cast this
  field_simp

/-- The probability row has one entry per class of the fitted ensemble. -/
theorem probaRow_length (m : RFModel) (row : List ℚ) :
    (rfPredictProbaRow m row).length = m.classes.length := by
  simp [rfPredictProbaRow]

/-- C4: after a successful `fit`, `predict_proba` on any matrix whose
column count matches fit time returns one probability row per input row;
each row sums to exactly 1 and has one entry per distinct class observed in
the training labels. -/
theorem proba_rows_sum_one (lib : MLLib) (hWF : lib.WF) (a0 : Algorithm)
    (X0 : Mat) (y : List Int) (X : Mat)
    (hfit : (a0.fitS lib X0 y).2 = Except.ok ())
    (hcols : ∀ r ∈ X, r.length = numCols X0) :
    ∃ P : Mat,
      ((a0.fitS lib X0 y).1.predictProbaS X).2 = Except.ok P ∧
        P.length = X.length ∧
        ∀ row ∈ P, row.sum = 1 ∧ row.length = y.dedup.length := by
  have hfst := fitS_fst_of_ok lib a0 X0 y hfit
  have hok := (fitS_snd_ok_iff lib a0 X0 y).mp hfit
  obtain ⟨-, ⟨hX0len, -⟩, htrain⟩ := hok
  simp only [trainOK, Bool.and_eq_true, beq_iff_eq, decide_eq_true_eq] at htrain
  obtain ⟨⟨⟨hylen, hest⟩, -⟩, -⟩ := htrain
  have hy : y ≠ [] := by
    intro h0
    rw [h0] at hylen
    simp at hylen
    omega
  set m := lib.rfTrain a0.hyper (X0.map (scalerTransformRow (lib.scalerFitStats X0))) y with hm
  have hT : m.trees ≠ [] := by
    have : 0 < m.trees.length := by
      rw [hm, hWF.trees_count]
      omega
    exact (List.length_pos.mp this)
  have hvlt : ∀ t ∈ m.trees, ∀ row, t row < m.classes.length :=
    hWF.votes_lt a0.hyper _ y hy
  have hclen : m.classes.length = y.dedup.length := by
    rw [hm, hWF.classes_eq, List.length_insertionSort]
  have hlen : ∀ r ∈ X, r.length = (lib.scalerFitStats X0).length := by
    intro r hr
    rw [hWF.stats_len]
    exact hcols r hr
  refine ⟨X.map (fun r => rfPredictProbaRow m (scalerTransformRow (lib.scalerFitStats X0) r)),
    ?_, by simp, ?_⟩
  · simp only [Algorithm.predictProbaS, hfst]
    rw [scalerTransform_ok _ _ hlen]
    simp [Except.bind, modelPredictProba, List.map_map, Function.comp, hm]
  · intro row hrow
    obtain ⟨r, -, rfl⟩ := List.mem_map.mp hrow
    exact ⟨probaRow_sum m _ hT (fun t ht => hvlt t ht _), (probaRow_length m _).trans hclen⟩

/-- Closed instance of `proba_rows_sum_one`. -/
theorem proba_rows_sum_one_w :
    ∃ P : Mat,
      (((construct ⟨none, none, none, none⟩).fitS lib0 [[1], [2]] [0, 1]).1.predictProbaS
            [[3]]).2 = Except.ok P ∧
        P.length = ([[3]] : Mat).length ∧
        ∀ row ∈ P, row.sum = 1 ∧ row.length = ([0, 1] : List Int).dedup.length :=
  proba_rows_sum_one lib0 lib0_wf (construct ⟨none, none, none, none⟩)
    [[1], [2]] [0, 1] [[3]] (by decide) (by decide)

/-- Specification of the printed top-5 index list: it has `min 5 n`
entries, all valid feature indices, listed with non-increasing importance,
and no feature outside the list beats any feature in it. -/
theorem topFive_spec (imp : List ℚ) :
    (topFiveIndices imp).length = min 5 imp.length ∧
      List.Pairwise (fun i j => imp.getD j 0 ≤ imp.getD i 0) (topFiveIndices imp) ∧
      (∀ i ∈ topFiveIndices imp, i < imp.length) ∧
      (∀ j < imp.length, j ∉ topFiveIndices imp →
        ∀ i ∈ topFiveIndices imp, imp.getD j 0 ≤ imp.getD i 0) := by
  haveI hTot : IsTotal Nat (fun i j => imp.getD i 0 ≤ imp.getD j 0) :=
    ⟨fun a b => le_total _ _⟩
  haveI hTrans : IsTrans Nat (fun i j => imp.getD i 0 ≤ imp.getD j 0) :=
    ⟨fun a b c hab hbc => le_trans hab hbc⟩
  have hsort : List.Sorted (fun i j => imp.getD i 0 ≤ imp.getD j 0) (argsortAsc imp) :=
    List.sorted_insertionSort _ _
  have hperm : List.Perm (argsortAsc imp) (List.range imp.length) :=
    List.perm_insertionSort _ _
  have hslen : (argsortAsc imp).length = imp.length := by
    rw [argsortAsc, List.length_insertionSort, List.length_range]
  refine ⟨?_, ?_, ?_, ?_⟩
  · rw [topFiveIndices, List.length_reverse, List.length_drop, hslen]
    omega
  · rw [topFiveIndices, List.pairwise_reverse]
    exact hsort.sublist (List.drop_sublist _ _)
  · intro i hi
    rw [topFiveIndices, List.mem_reverse] at hi
    have : i ∈ argsortAsc imp := (List.drop_sublist _ _).mem hi
    exact List.mem_range.mp (hperm.mem_iff.mp this)
  · intro j hj hnot i hi
    rw [topFiveIndices, List.mem_reverse] at hi hnot
    have hjs : j ∈ argsortAsc imp := hperm.mem_iff.mpr (List.mem_range.mpr hj)
    have hsplit := List.take_append_drop (imp.length - 5) (argsortAsc imp)
    rw [← hsplit] at hsort
    obtain ⟨-, -, hcross⟩ := List.pairwise_append.mp hsort
    have hjtake : j ∈ (argsortAsc imp).take (imp.length - 5) := by
      rcases (List.mem_append.mp (hsplit ▸ hjs : j ∈ _ ++ _)) with h | h
      · exact h
      · exact absurd h hnot
    exact hcross j hjtake i hi

/-- C9: after a successful training call the fitted ensemble's importance
scores, run through the printed `argsort`/take-5/reverse pipeline, yield
the five most influential feature indices in descending order of
importance (all of them when fewer than five features exist): every listed
index is a valid feature, the listed importances are non-increasing, and no
unlisted feature has a larger importance than any listed one. -/
theorem fit_reports_top_five (lib : MLLib) (a0 : Algorithm) (X0 : Mat) (y : List Int)
    (hfit : (a0.fitS lib X0 y).2 = Except.ok ()) :
    ∃ m, (a0.fitS lib X0 y).1.model = some m ∧
      (topFiveIndices m.importances).length = min 5 m.importances.length ∧
      List.Pairwise (fun i j => m.importances.getD j 0 ≤ m.importances.getD i 0)
        (topFiveIndices m.importances) ∧
      (∀ i ∈ topFiveIndices m.importances, i < m.importances.length) ∧
      (∀ j < m.importances.length, j ∉ topFiveIndices m.importances →
        ∀ i ∈ topFiveIndices m.importances, m.importances.getD j 0 ≤ m.importances.getD i 0) := by
  refine ⟨lib.rfTrain a0.hyper (X0.map (scalerTransformRow (lib.scalerFitStats X0))) y, ?_, ?_⟩
  · rw [fitS_fst_of_ok lib a0 X0 y hfit]
  · exact topFive_spec _

/-- Closed instance of `fit_reports_top_five`: with the six importance
scores of `lib0` the printed list has exactly five indices. -/
theorem fit_reports_top_five_w :
    ∃ m, ((construct ⟨none, none, none, none⟩).fitS lib0 [[1], [2]] [0, 1]).1.model = some m ∧
      (topFiveIndices m.importances).length = min 5 m.importances.length ∧
      List.Pairwise (fun i j => m.importances.getD j 0 ≤ m.importances.getD i 0)
        (topFiveIndices m.importances) ∧
      (∀ i ∈ topFiveIndices m.importances, i < m.importances.length) ∧
      (∀ j < m.importances.length, j ∉ topFiveIndices m.importances →
        ∀ i ∈ topFiveIndices m.importances, m.importances.getD j 0 ≤ m.importances.getD i 0) :=
  fit_reports_top_five lib0 (construct ⟨none, none, none, none⟩) [[1], [2]] [0, 1] (by decide)

/-- Refutation of C8 as stated, in both directions.  First, `fit` runs
`scaler.fit_transform` before `model.fit`, so a training call whose label
count does not match the row count fails in the library — yet the
standardization transform has already been populated: the transform is
populated by an unsuccessful training call, and the wrapper sits in a
third state (scaler fitted, model unfit) outside the claimed two-state
machine.  Second, the machine is not one-way for the transform:
`StandardScaler.fit` resets its fitted statistics before validating, so a
failed refit of a fitted wrapper with a zero-feature matrix returns the
populated transform to the uninitialized state. -/
theorem failed_fit_populates_transform :
    (((construct ⟨none, none, none, none⟩).fitS lib0 [[1], [2]] [0]).2 =
          Except.error Err.libraryError ∧
        ((construct ⟨none, none, none, none⟩).fitS lib0 [[1], [2]] [0]).1.scalerStats ≠ none ∧
        ((construct ⟨none, none, none, none⟩).fitS lib0 [[1], [2]] [0]).1.model = none) ∧
      (((construct ⟨none, none, none, none⟩).fitS lib0 [[1], [2]] [0, 1]).1.scalerStats ≠
          none ∧
        ((((construct ⟨none, none, none, none⟩).fitS lib0 [[1], [2]] [0, 1]).1.fitS lib0
            [[]] [0, 1]).2 = Except.error Err.libraryError) ∧
        (((construct ⟨none, none, none, none⟩).fitS lib0 [[1], [2]] [0, 1]).1.fitS lib0
            [[]] [0, 1]).1.scalerStats = none) :=
  ⟨⟨by decide, by decide, rfl⟩, ⟨by decide, by decide, by decide⟩⟩

/-- C8 as amended: both components of the fitted state are uninitialized
at construction; a successful training call populates both, storing the
statistics learned from the training matrix; the ensemble model is
populated only by a successful training call and never returns to
uninitialized; the standardization transform instead tracks the most
recent training attempt that reached the scaler — an attempt failing
after standardization leaves it populated, and an attempt whose matrix
converts but has no samples or no features resets it to uninitialized
(the scaler resets before validating); the prediction operations change
nothing. -/
theorem lifecycle_amended (p : ParamsDict) (lib : MLLib) (a : Algorithm)
    (X : Mat) (y : List Int) (Xt : Mat) :
    ((construct p).scalerStats = none ∧ (construct p).model = none) ∧
      ((a.fitS lib X y).2 = Except.ok () →
        (a.fitS lib X y).1.scalerStats = some (lib.scalerFitStats X) ∧
          (a.fitS lib X y).1.model ≠ none) ∧
      ((a.fitS lib X y).2 ≠ Except.ok () → (a.fitS lib X y).1.model = a.model) ∧
      (a.model ≠ none → (a.fitS lib X y).1.model ≠ none) ∧
      (rectOK X = true → ¬(0 < X.length ∧ 0 < numCols X) →
        (a.fitS lib X y).1.scalerStats = none) ∧
      ((a.predictS Xt).1 = a ∧ (a.predictProbaS Xt).1 = a) := by
  refine ⟨⟨rfl, rfl⟩, ?_, ?_, ?_, ?_, ⟨rfl, rfl⟩⟩
  · intro h
    rw [fitS_fst_of_ok lib a X y h]
    exact ⟨rfl, by simp⟩
  · intro h
    unfold Algorithm.fitS at h ⊢
    split_ifs at h ⊢ <;> simp_all
  · intro h
    unfold Algorithm.fitS
    split_ifs <;> simp_all
  · intro h1 h2
    unfold Algorithm.fitS
    split_ifs
    simp_all

/-- Closed instances of `lifecycle_amended`: a fresh wrapper is
uninitialized; a successful fit populates both components; a failed fit
leaves the model untouched; a failed refit of a fitted wrapper keeps the
model populated; and a refit with a zero-feature matrix resets the
transform. -/
theorem lifecycle_amended_w :
    ((construct ⟨none, none, none, none⟩).scalerStats = none ∧
        (construct ⟨none, none, none, none⟩).model = none) ∧
      (((construct ⟨none, none, none, none⟩).fitS lib0 [[1], [2]] [0, 1]).1.scalerStats =
          some (lib0.scalerFitStats [[1], [2]]) ∧
        ((construct ⟨none, none, none, none⟩).fitS lib0 [[1], [2]] [0, 1]).1.model ≠ none) ∧
      (((construct ⟨none, none, none, none⟩).fitS lib0 [[1], [2]] [0]).1.model =
        (construct ⟨none, none, none, none⟩).model) ∧
      ((((construct ⟨none, none, none, none⟩).fitS lib0 [[1], [2]] [0, 1]).1.fitS lib0
          [[1], [2]] [0]).1.model ≠ none) ∧
      ((((construct ⟨none, none, none, none⟩).fitS lib0 [[1], [2]] [0, 1]).1.fitS lib0
          [[]] [0, 1]).1.scalerStats = none) :=
  ⟨(lifecycle_amended ⟨none, none, none, none⟩ lib0 (construct ⟨none, none, none, none⟩)
      [[1], [2]] [0, 1] [[0]]).1,
    (lifecycle_amended ⟨none, none, none, none⟩ lib0 (construct ⟨none, none, none, none⟩)
      [[1], [2]] [0, 1] [[0]]).2.1 (by decide),
    (lifecycle_amended ⟨none, none, none, none⟩ lib0 (construct ⟨none, none, none, none⟩)
      [[1], [2]] [0] [[0]]).2.2.1 (by decide),
    (lifecycle_amended ⟨none, none, none, none⟩ lib0
      ((construct ⟨none, none, none, none⟩).fitS lib0 [[1], [2]] [0, 1]).1
      [[1], [2]] [0] [[0]]).2.2.2.1
      (by rw [fitS_fst_of_ok lib0 _ _ _ (by decide)]; simp),
    (lifecycle_amended ⟨none, none, none, none⟩ lib0
      ((construct ⟨none, none, none, none⟩).fitS lib0 [[1], [2]] [0, 1]).1
      [[]] [0, 1] [[0]]).2.2.2.2.1 (by decide) (by decide)⟩

end RF
